import Mathlib

/-!
# Verification of the jcch teaching examples

Shallow embedding of the repository's two behaviourally relevant
fragments and proofs of the specification claims about them:

* `src/classes/vector2d_v3.py` — an immutable 2-component vector of
  IEEE-754 double-precision floats with the standard value-object
  protocol methods (`__eq__`, `__hash__`, `__bytes__`/`frombytes`,
  `__abs__`, `__bool__`, `angle`, `__format__`, `__repr__`, read-only
  `x`/`y` properties).

* the schedule record loader (`schedule_v2`), whose source file is not
  in the repository snapshot (only its test file
  `src/23-dyn-attr-prop/oscon/test_schedule_v2.py` is); its fetch /
  cache behaviour is modelled from the specification and pinned test
  strings.

Doubles are embedded at the bit level: a float is a sign bit, an 11-bit
exponent field and a 52-bit mantissa field.  The exact value of a finite
float, scaled by `2 ^ 1074` so that it is an integer, is `F64.sval`;
Python's `==` on floats compares these exact values (never equal when an
operand is a NaN), and CPython's float hash is reproduced exactly by
modular arithmetic on `sval`'s factorisation.  The transcendental
library calls `math.hypot` and `math.atan2` are modelled by the exact
real functions they approximate.
-/

set_option exponentiation.threshold 1200

deriving instance DecidableEq for Except

namespace JcchSpec

/-- An IEEE-754 binary64 value, as stored: sign bit, 11-bit biased
exponent field and 52-bit mantissa field.  This is the representation
behind CPython's `float` used by `vector2d_v3.py`. -/
structure F64 where
  sign : Bool
  expF : Nat
  mantF : Nat
  expLt : expF < 2048
  mantLt : mantF < 2 ^ 52
  deriving DecidableEq, Repr

namespace F64

/-- The full significand of a finite double: with the implicit leading
bit for normal numbers (`expF ≠ 0`), without it for subnormals. -/
def mant (f : F64) : Nat := if f.expF = 0 then f.mantF else 2 ^ 52 + f.mantF

/-- Exponent of the significand relative to the subnormal scale
`2 ^ (-1074)`: a finite double has exact value
`± mant · 2 ^ (shift - 1074)`. -/
def shift (f : F64) : Nat := if f.expF = 0 then 0 else f.expF - 1

/-- The exact value of a finite double, scaled by `2 ^ 1074` (so that it
is an integer).  For non-finite floats (`expF = 2047`) the result is not
meaningful and is never used. -/
def sval (f : F64) : ℤ := (if f.sign then -1 else 1) * (f.mant * 2 ^ f.shift : ℕ)

/-- The exact rational value of a finite double. -/
def valQ (f : F64) : ℚ := (f.sval : ℚ) / 2 ^ 1074

def isNaN (f : F64) : Bool := f.expF = 2047 && f.mantF ≠ 0

def isInf (f : F64) : Bool := f.expF = 2047 && f.mantF = 0

/-- Finite means the exponent field is not all ones. -/
def isFinite (f : F64) : Bool := f.expF ≠ 2047

/-- Model of CPython `float.__eq__`: a NaN equals nothing; finite floats
compare by exact value (so `0.0 == -0.0`); infinities compare by sign. -/
def pyEq (a b : F64) : Bool :=
  if a.isNaN || b.isNaN then false
  else if a.isFinite && b.isFinite then a.sval = b.sval
  else if a.isInf && b.isInf then a.sign = b.sign
  else false

/-- The raw 64-bit pattern of a double. -/
def bits (f : F64) : Nat :=
  (if f.sign then 2 ^ 63 else 0) + f.expF * 2 ^ 52 + f.mantF

/-- Decode a 64-bit pattern into its fields. -/
def ofBits (n : Nat) : F64 where
  sign := n / 2 ^ 63 % 2 = 1
  expF := n / 2 ^ 52 % 2048
  mantF := n % 2 ^ 52
  expLt := Nat.mod_lt _ (by norm_num)
  mantLt := Nat.mod_lt _ (by norm_num)

/-- The 8 little-endian bytes of a 64-bit pattern (Python's
`bytes(array('d', …))` layout on the usual little-endian platforms; the
claims only need that serialisation and deserialisation agree). -/
def natToBytes (n : Nat) : List Nat :=
  [n % 256, n / 256 % 256, n / 256 ^ 2 % 256, n / 256 ^ 3 % 256,
   n / 256 ^ 4 % 256, n / 256 ^ 5 % 256, n / 256 ^ 6 % 256, n / 256 ^ 7 % 256]

/-- Reassemble 8 little-endian bytes (each reduced mod 256, as Python
byte values are) into a 64-bit pattern. -/
def bytesToNat (b : List Nat) : Nat :=
  match b with
  | [b0, b1, b2, b3, b4, b5, b6, b7] =>
      b0 % 256 + b1 % 256 * 256 + b2 % 256 * 256 ^ 2 + b3 % 256 * 256 ^ 3 +
      b4 % 256 * 256 ^ 4 + b5 % 256 * 256 ^ 5 + b6 % 256 * 256 ^ 6 + b7 % 256 * 256 ^ 7
  | _ => 0

/-- The 8 bytes of one double, as written by
`bytes(array('d', [x]))`. -/
def toBytes (f : F64) : List Nat := natToBytes f.bits

/-- The double `+0.0`. -/
def zero : F64 := ⟨false, 0, 0, by norm_num, by norm_num⟩

/-- Fuel-driven binary logarithm (structurally recursive, so that the
kernel can evaluate it inside `decide`). -/
def blog : Nat → Nat → Nat
  | 0, _ => 0
  | fuel + 1, n => if n ≤ 1 then 0 else blog fuel (n / 2) + 1

/-- Index of the top set bit of a positive number. -/
def topBit (n : Nat) : Nat := blog n n

/-- Round-to-nearest-even conversion of a positive integer magnitude `m`
with sign `s` to a double.  Magnitudes whose rounded value reaches
`2 ^ 1024` are mapped to the infinity bit pattern; CPython's `float(n)`
raises `OverflowError` there instead — no claim exercises that range. -/
def ofPos (s : Bool) (m : Nat) (hm : 0 < m) : F64 :=
  have key : ∀ fuel n, 0 < n → n ≤ fuel → n < 2 ^ (blog fuel n + 1) := by
    intro fuel
    induction fuel with
    | zero => intro n h1 h2; omega
    | succ fuel ih =>
      intro n h1 h2
      by_cases hn : n ≤ 1
      · have hone : n = 1 := by omega
        subst hone
        norm_num [blog]
      · have hrec := ih (n / 2) (by omega) (by omega)
        have hb : blog (fuel + 1) n = blog fuel (n / 2) + 1 := by
          have hd : blog (fuel + 1) n = if n ≤ 1 then 0 else blog fuel (n / 2) + 1 := rfl
          rw [hd, if_neg hn]
        rw [hb]
        have e2 : 2 ^ (blog fuel (n / 2) + 1 + 1) = 2 * 2 ^ (blog fuel (n / 2) + 1) := by
          ring
        rw [e2]
        omega
  have hub : m < 2 ^ (topBit m + 1) := key m m hm le_rfl
  if hp : topBit m ≤ 52 then
    -- the integer is exactly representable: significand m · 2 ^ (52 - p)
    ⟨s, topBit m + 1023, m * 2 ^ (52 - topBit m) - 2 ^ 52, by omega, by
      have h1 : m * 2 ^ (52 - topBit m) < 2 ^ (topBit m + 1) * 2 ^ (52 - topBit m) :=
        Nat.mul_lt_mul_of_pos_right hub (Nat.pos_pow_of_pos _ (by norm_num))
      have h2 : 2 ^ (topBit m + 1) * 2 ^ (52 - topBit m) = 2 ^ 53 := by
        rw [← pow_add]; congr 1; omega
      omega⟩
  else
    -- 53 or more bits: keep the top 53, round to nearest, ties to even
    have hq : m / 2 ^ (topBit m - 52) < 2 ^ 53 := by
      rw [Nat.div_lt_iff_lt_mul (Nat.pos_pow_of_pos _ (by norm_num))]
      calc m < 2 ^ (topBit m + 1) := hub
        _ ≤ 2 ^ 53 * 2 ^ (topBit m - 52) := by
            rw [← pow_add]; exact Nat.pow_le_pow_right (by norm_num) (by omega)
    roundPack s (topBit m)
      (if 2 ^ (topBit m - 52 - 1) < m % 2 ^ (topBit m - 52) ∨
          (m % 2 ^ (topBit m - 52) = 2 ^ (topBit m - 52 - 1) ∧
           m / 2 ^ (topBit m - 52) % 2 = 1)
       then m / 2 ^ (topBit m - 52) + 1 else m / 2 ^ (topBit m - 52))
      (by split <;> omega)
where
  /-- Pack a rounded 53-bit significand `q ≤ 2 ^ 53` at top-bit position
  `p` into a double, carrying into the exponent when rounding overflowed
  the significand, and into the infinity pattern when the exponent field
  overflows. -/
  roundPack (s : Bool) (p : Nat) (q : Nat) (hq : q ≤ 2 ^ 53) : F64 :=
    if hq53 : q = 2 ^ 53 then
      if h : p + 1024 < 2047 then ⟨s, p + 1024, 0, by omega, by norm_num⟩
      else ⟨s, 2047, 0, by norm_num, by norm_num⟩
    else
      if h : p + 1023 < 2047 then ⟨s, p + 1023, q - 2 ^ 52, by omega, by omega⟩
      else ⟨s, 2047, 0, by norm_num, by norm_num⟩

/-- Model of CPython's `float(n)` on an int (the coercion applied by
`Vector2d.__init__`). -/
def ofInt (n : ℤ) : F64 :=
  if hn : n = 0 then zero
  else ofPos (decide (n < 0)) n.natAbs (by simpa using hn)

/-- CPython's `hash` of a finite double `± mant · 2 ^ (shift - 1074)`:
the exact value reduced modulo the Mersenne prime `2 ^ 61 - 1` (powers
of two are invertible mod the prime, and `2 ^ 61 ≡ 1`, so the negative
exponent collapses to `(shift - 1074) mod 61`), negated for negative
inputs, with `-1` remapped to `-2`; infinities hash to `± 314159` and a
NaN to `0` (CPython ≤ 3.9, the era of this source). -/
def pyHash (f : F64) : ℤ :=
  if f.isNaN then 0
  else if f.isInf then (if f.sign then -314159 else 314159)
  else
    let em : Nat := (((f.shift : ℤ) - 1074).emod 61).toNat
    let hv : Nat := f.mant * 2 ^ em % (2 ^ 61 - 1)
    let r : ℤ := (if f.sign then -1 else 1) * hv
    if r = -1 then -2 else r

end F64

/-- A Python number handed to `Vector2d.__init__`: an int or a float. -/
inductive PyNum where
  | int (n : ℤ)
  | float (f : F64)

/-- The `float(x)` coercion applied to each constructor argument. -/
def pyFloat : PyNum → F64
  | .int n => F64.ofInt n
  | .float f => f

/-- `Vector2d` from `src/classes/vector2d_v3.py`: the two private
fields `__x`/`__y` set by `__init__`, exposed read-only through the
`x`/`y` properties. -/
structure Vector2d where
  x : F64
  y : F64
  deriving DecidableEq, Repr

namespace Vector2d

/-- `Vector2d.__init__`: both arguments coerced with `float(…)`. -/
def init (a b : PyNum) : Vector2d := ⟨pyFloat a, pyFloat b⟩

/-- `__iter__`: yields the two components in order `(x, y)`. -/
def toList (v : Vector2d) : List F64 := [v.x, v.y]

/-- Python `==` on two tuples of floats: equal length and pairwise
float equality. -/
def pyTupleEq : List F64 → List F64 → Bool
  | [], [] => true
  | a :: as, b :: bs => F64.pyEq a b && pyTupleEq as bs
  | _, _ => false

/-- `__eq__` between two vectors: `tuple(self) == tuple(other)`. -/
def vecEq (v w : Vector2d) : Bool := pyTupleEq v.toList w.toList

/-- `__eq__` against any other iterable of floats (the source converts
`other` with `tuple(other)`, so any two-element iterable may compare
equal to a vector). -/
def vecEqList (v : Vector2d) (other : List F64) : Bool := pyTupleEq v.toList other

/-- `__bytes__`: `bytes(array('d', self))` — the 8 bytes of `x`
followed by the 8 bytes of `y`, nothing else. -/
def pyBytes (v : Vector2d) : List Nat := v.x.toBytes ++ v.y.toBytes

/-- `frombytes` classmethod: `memoryview(octets).cast('d')` splits the
byte string into 8-byte doubles (failing unless the length is a
multiple of 8), and `cls(*memv)` requires exactly two of them; so the
call succeeds exactly on 16-byte inputs. -/
def frombytes (octets : List Nat) : Option Vector2d :=
  if octets.length = 16 then
    some ⟨F64.ofBits (F64.bytesToNat (octets.take 8)),
          F64.ofBits (F64.bytesToNat (octets.drop 8))⟩
  else none

/-- `__hash__`: `hash(self.x) ^ hash(self.y)` — the bitwise XOR (with
Python's two's-complement semantics on negatives) of the component
hashes. -/
def vecHash (v : Vector2d) : ℤ := Int.xor (F64.pyHash v.x) (F64.pyHash v.y)

/-- The square of the Euclidean norm of the exact component values. -/
def abs2 (v : Vector2d) : ℚ := v.x.valQ ^ 2 + v.y.valQ ^ 2

/-- `__abs__`, i.e. `math.hypot(self.x, self.y)`, modelled as the exact
Euclidean norm (C99 `hypot` guarantees no undue overflow or underflow,
so zero-ness and exactly representable results such as `hypot(3,4)=5`
agree with the float computation; meaningful for finite components). -/
noncomputable def magnitude (v : Vector2d) : ℝ := Real.sqrt (v.abs2 : ℝ)

/-- `__bool__`: `bool(abs(self))` — false exactly when the norm
computed by `hypot` is `0.0`, which happens exactly when the exact sum
of squares of the (scaled) component values is zero (`hypot` never
underflows a nonzero input to zero, since `hypot(x,y) ≥ max(|x|,|y|)`). -/
def pyBool (v : Vector2d) : Bool :=
  !decide (v.x.sval * v.x.sval + v.y.sval * v.y.sval = 0)

/-- `math.atan2 y x`, modelled as the exact two-argument arctangent
with range `(-π, π]` (the IEEE signed-zero distinctions of the library
function are below the resolution of exact values and are not exercised
by any claim). -/
noncomputable def atan2 (y x : ℝ) : ℝ :=
  if 0 < x then Real.arctan (y / x)
  else if x < 0 then
    (if 0 ≤ y then Real.arctan (y / x) + Real.pi else Real.arctan (y / x) - Real.pi)
  else -- x = 0
    (if 0 < y then Real.pi / 2 else if y < 0 then -(Real.pi / 2) else 0)

/-- The `angle` method: `math.atan2(self.y, self.x)`. -/
noncomputable def angle (v : Vector2d) : ℝ := atan2 (v.y.valQ : ℝ) (v.x.valQ : ℝ)

/-- `fmt_spec.endswith('p')`: the last character is the polar flag. -/
def endsWithP (s : String) : Bool := s.data.getLast? = some 'p'

/-- `fmt_spec[:-1]`: the spec without its last character. -/
def dropLastStr (s : String) : String := String.mk s.data.dropLast

/-- `__format__`, parametric in the numeric formatting of one float
value (the built-in `format(c, fmt_spec)`, which is CPython library
code, not code of this repository): a spec ending in the custom suffix
`'p'` renders `<magnitude, angle>` with the suffix stripped from the
per-component spec; otherwise `(x, y)` is rendered.  The components are
handed to the formatter as the exact real values of the floats
involved. -/
noncomputable def pyFormat (fmtc : String → ℝ → String) (v : Vector2d)
    (spec : String) : String :=
  if endsWithP spec then
    "<" ++ fmtc (dropLastStr spec) (magnitude v) ++ ", " ++
      fmtc (dropLastStr spec) (angle v) ++ ">"
  else
    "(" ++ fmtc spec (v.x.valQ : ℝ) ++ ", " ++ fmtc spec (v.y.valQ : ℝ) ++ ")"

/-- `__repr__`, parametric in the float-to-source rendering `fr` (the
built-in `repr` of one float, CPython library code):
`'Vector2d({!r}, {!r})'.format(*self)`. -/
def pyRepr (fr : F64 → String) (v : Vector2d) : String :=
  "Vector2d(" ++ fr v.x ++ ", " ++ fr v.y ++ ")"

/-- Strip an expected prefix from a character list, or fail. -/
def dropPre : List Char → List Char → Option (List Char)
  | [], s => some s
  | _ :: _, [] => none
  | p :: ps, c :: cs => if p = c then dropPre ps cs else none

/-- Strip one expected closing parenthesis from the end, or fail. -/
def dropParen (s : List Char) : Option (List Char) :=
  if s.getLast? = some ')' then some s.dropLast else none

/-- Split at the first comma, expecting it to start a `", "` separator,
or fail. -/
def splitComma : List Char → Option (List Char × List Char)
  | [] => none
  | c :: rest =>
    if c = ',' then
      match rest with
      | ' ' :: rest2 => some ([], rest2)
      | _ => none
    else
      match splitComma rest with
      | some (a, b) => some (c :: a, b)
      | none => none

/-- Model of evaluating a `Vector2d(a, b)` source expression, parametric
in the parsing `pf` of one float literal (the inverse direction of the
built-in float `repr`): recognise the constructor call syntax produced
by `pyRepr` and rebuild the instance. -/
def evalRepr (pf : String → Option F64) (s : String) : Option Vector2d :=
  match dropPre "Vector2d(".data s.data with
  | none => none
  | some r1 =>
    match dropParen r1 with
    | none => none
    | some r2 =>
      match splitComma r2 with
      | none => none
      | some (a, b) =>
        match pf (String.mk a), pf (String.mk b) with
        | some x, some y => some ⟨x, y⟩
        | _, _ => none

/-- A CPython property descriptor as used in the source: a getter and
optionally a setter. -/
structure PyProperty where
  hasSetter : Bool

/-- The two data descriptors of the class: `x` and `y` are declared
with bare `@property`, so neither has a setter. -/
def xProperty : PyProperty := ⟨false⟩

def yProperty : PyProperty := ⟨false⟩

/-- A component name of the vector. -/
inductive Comp where
  | x
  | y
  deriving DecidableEq

/-- CPython attribute assignment through a class data descriptor:
`property.__set__` raises `AttributeError: can't set attribute` when
the property was built without a setter, leaving the instance
untouched; with a setter it would rebind the component. -/
def setViaProperty (p : PyProperty) (v : Vector2d) (c : Comp) (newVal : F64) :
    Except String Vector2d :=
  if p.hasSetter then
    .ok (match c with | .x => ⟨newVal, v.y⟩ | .y => ⟨v.x, newVal⟩)
  else .error "AttributeError: can't set attribute"

/-- `v.x = …` / `v.y = …`: assignment is routed through the class's
property descriptor for the named component. -/
def setAttr (v : Vector2d) (c : Comp) (newVal : F64) : Except String Vector2d :=
  setViaProperty (match c with | .x => xProperty | .y => yProperty) v c newVal

end Vector2d

/-! ## The schedule record loader

The loader module `schedule_v2` itself is not part of the repository
snapshot — only its test file `test_schedule_v2.py` is — so the data
model and the fetch/cache behaviour below are modelled from the
specification, with display strings pinned by the test file. -/

namespace Schedule

/-- A JSON scalar stored in a record field. -/
inductive Value where
  | int (n : ℤ)
  | str (s : String)
  deriving DecidableEq, Repr

/-- The field mapping of one record, as loaded verbatim from the JSON
object. -/
abbrev Fields := List (String × Value)

/-- The record variants: the default generic record, and the
specialized `event` variant. -/
inductive RecKind where
  | generic
  | event
  deriving DecidableEq, Repr

/-- Modelled from the spec: a constructed record of `schedule_v2`
(missing from the snapshot) — a kind discriminator together with the
backing field mapping. -/
structure Rec where
  kind : RecKind
  fields : Fields
  deriving DecidableEq, Repr

/-- First-key lookup in an association list (Python `dict` access over
the distinct keys of a JSON mapping). -/
def lookup (key : String) : List (String × α) → Option α
  | [] => none
  | (k, v) :: rest => if k = key then some v else lookup key rest

/-- The category portion of a composite key: the text before the first
dot of `"<category>.<serial>"`. -/
def categoryChars : List Char → List Char
  | [] => []
  | c :: cs => if c = '.' then [] else c :: categoryChars cs

def category (key : String) : String := String.mk (categoryChars key.data)

/-- Modelled from the spec: record construction in `Record.fetch`
(missing from the snapshot) selects the concrete variant by the
category portion of the key — `"event"` yields the specialized variant,
anything else the generic record. -/
def mkRec (key : String) (flds : Fields) : Rec :=
  ⟨if category key = "event" then .event else .generic, flds⟩

/-- The process-wide state behind `Record.fetch`: the dataset loaded
once from the JSON document (keyed by composite key), and the cache of
already-constructed records. -/
structure FetchState where
  dataset : List (String × Fields)
  cache : List (String × Rec)
  deriving DecidableEq, Repr

/-- Modelled from the spec: `Record.fetch` (missing from the snapshot)
returns the cached record if previously constructed; otherwise
constructs it from the preloaded dataset, caches it and returns it;
a key absent from the dataset raises `KeyError`, surfaced unchanged to
the caller. -/
def fetch (st : FetchState) (key : String) : Except String Rec × FetchState :=
  match lookup key st.cache with
  | some r => (.ok r, st)
  | none =>
    match lookup key st.dataset with
    | some flds => (.ok (mkRec key flds), ⟨st.dataset, (key, mkRec key flds) :: st.cache⟩)
    | none => (.error ("KeyError: " ++ key), st)

/-- Modelled from the spec: dynamic attribute access on a record
(missing from the snapshot) — a field lookup in the backing mapping,
`AttributeError` when absent. -/
def getAttr (r : Rec) (name : String) : Except String Value :=
  match lookup name r.fields with
  | some v => .ok v
  | none => .error ("AttributeError: " ++ name)

/-- Modelled from the spec: the default display form of a generic
record (missing from the snapshot); CPython's default form includes a
memory address, abstracted here to an opaque constant. -/
def defaultRepr : String := "<Record>"

/-- Modelled from the spec: the kind-dependent display form (missing
from the snapshot) — generic records show the default representation;
the event variant embeds its title field when present and otherwise
falls back to a form embedding its serial number, with the exact
strings pinned by `test_schedule_v2.py` (`"<Event 'There *Will* Be
Bugs'>"`, `"<Event serial=77>"`). -/
def recRepr (r : Rec) : String :=
  match r.kind with
  | .generic => defaultRepr
  | .event =>
    match lookup "title" r.fields with
    | some (.str t) => "<Event '" ++ t ++ "'>"
    | _ =>
      match lookup "serial" r.fields with
      | some (.int n) => "<Event serial=" ++ toString n ++ ">"
      | _ => defaultRepr

end Schedule

/-! ## Concrete values used by the witnesses -/

/-- The double `1.0`. -/
def f1 : F64 := ⟨false, 1023, 0, by norm_num, by norm_num⟩

/-- The double `3.0`. -/
def f3 : F64 := ⟨false, 1024, 2 ^ 51, by norm_num, by norm_num⟩

/-- The double `4.0`. -/
def f4 : F64 := ⟨false, 1025, 0, by norm_num, by norm_num⟩

/-- The double `-0.0`. -/
def fNegZero : F64 := ⟨true, 0, 0, by norm_num, by norm_num⟩

/-- A quiet-NaN bit pattern. -/
def fNaN : F64 := ⟨false, 2047, 1, by norm_num, by norm_num⟩

/-- `Vector2d(3, 4)`. -/
def v34 : Vector2d := Vector2d.init (.int 3) (.int 4)

/-- `Vector2d(0, 0)`. -/
def v00 : Vector2d := Vector2d.init (.int 0) (.int 0)

/-- `Vector2d(1, 1)`. -/
def v11 : Vector2d := Vector2d.init (.int 1) (.int 1)

/-- The vector `(0.0, -0.0)`: equal to `Vector2d(0, 0)` but with a
different bit pattern in the second component. -/
def vNegZero : Vector2d := ⟨F64.zero, fNegZero⟩

/-- A one-venue dataset with an empty cache, for the fetch witnesses. -/
def demoState : Schedule.FetchState :=
  ⟨[("venue.1469", [("serial", .int 1469), ("name", .str "Exhibit Hall C")])], []⟩

/-- A vector with a NaN first component. -/
def vNaN : Vector2d := ⟨fNaN, F64.zero⟩

/-! ## Supporting lemmas -/

namespace F64

theorem bits_lt (f : F64) : f.bits < 2 ^ 64 := by
  have h1 := f.expLt
  have h2 := f.mantLt
  unfold bits
  cases f.sign <;> simp <;> omega

theorem ofBits_bits (f : F64) : ofBits f.bits = f := by
  obtain ⟨s, e, m, he, hm⟩ := f
  unfold ofBits bits
  cases s <;> simp <;> constructor <;> omega

theorem bytesToNat_natToBytes (n : Nat) (h : n < 2 ^ 64) :
    bytesToNat (natToBytes n) = n := by
  unfold natToBytes bytesToNat
  simp only
  omega

theorem length_natToBytes (n : Nat) : (natToBytes n).length = 8 := rfl

theorem ofBits_bytesToNat_toBytes (f : F64) : ofBits (bytesToNat f.toBytes) = f := by
  rw [toBytes, bytesToNat_natToBytes f.bits f.bits_lt, ofBits_bits]

/-- A nonzero significand-and-exponent decomposition is unique: the
significand ranges `[2 ^ 52, 2 ^ 53)` (normal) and `[1, 2 ^ 52)` with
shift `0` (subnormal) cannot collide. -/
theorem mant_shift_unique (a b : F64)
    (heq : a.mant * 2 ^ a.shift = b.mant * 2 ^ b.shift) :
    a.mant = b.mant ∧ a.shift = b.shift := by
  have h52 : ∀ f : F64, f.expF ≠ 0 → 2 ^ 52 ≤ f.mant ∧ f.mant < 2 ^ 53 := by
    intro f hf
    have := f.mantLt
    unfold mant
    rw [if_neg hf]
    omega
  have hsub : ∀ f : F64, f.expF = 0 → f.mant < 2 ^ 52 ∧ f.shift = 0 := by
    intro f hf
    have := f.mantLt
    unfold mant shift
    rw [if_pos hf, if_pos hf]
    omega
  by_cases hea : a.expF = 0 <;> by_cases heb : b.expF = 0
  · obtain ⟨_, hsa⟩ := hsub a hea
    obtain ⟨_, hsb⟩ := hsub b heb
    rw [hsa, hsb] at heq ⊢
    simpa using heq
  · -- a subnormal, b normal: RHS is at least 2 ^ 52, LHS below it
    obtain ⟨hma2, hsa⟩ := hsub a hea
    obtain ⟨hmb2, _⟩ := h52 b heb
    have : 2 ^ 52 ≤ b.mant * 2 ^ b.shift :=
      le_trans hmb2 (Nat.le_mul_of_pos_right _ (Nat.pos_pow_of_pos _ (by norm_num)))
    rw [hsa] at heq
    omega
  · obtain ⟨hmb2, hsb⟩ := hsub b heb
    obtain ⟨hma2, _⟩ := h52 a hea
    have : 2 ^ 52 ≤ a.mant * 2 ^ a.shift :=
      le_trans hma2 (Nat.le_mul_of_pos_right _ (Nat.pos_pow_of_pos _ (by norm_num)))
    rw [hsb] at heq
    omega
  · -- both normal: equal shifts, else one side is at least 2 ^ 53
    obtain ⟨hma2, hma3⟩ := h52 a hea
    obtain ⟨hmb2, hmb3⟩ := h52 b heb
    rcases Nat.lt_trichotomy a.shift b.shift with hlt | heqs | hgt
    · exfalso
      have hstep : b.mant * 2 ^ b.shift = b.mant * 2 ^ (b.shift - a.shift) * 2 ^ a.shift := by
        rw [mul_assoc, ← pow_add]
        congr 2
        omega
      rw [hstep] at heq
      have hc := Nat.eq_of_mul_eq_mul_right (Nat.pos_pow_of_pos a.shift (by norm_num)) heq
      have : 2 ^ 53 ≤ b.mant * 2 ^ (b.shift - a.shift) := by
        calc 2 ^ 53 = 2 ^ 52 * 2 ^ 1 := by norm_num
          _ ≤ b.mant * 2 ^ (b.shift - a.shift) :=
            Nat.mul_le_mul hmb2 (Nat.pow_le_pow_right (by norm_num) (by omega))
      omega
    · refine ⟨?_, heqs⟩
      rw [heqs] at heq
      exact Nat.eq_of_mul_eq_mul_right (Nat.pos_pow_of_pos b.shift (by norm_num)) heq
    · exfalso
      have hstep : a.mant * 2 ^ a.shift = a.mant * 2 ^ (a.shift - b.shift) * 2 ^ b.shift := by
        rw [mul_assoc, ← pow_add]
        congr 2
        omega
      rw [hstep] at heq
      have hc := Nat.eq_of_mul_eq_mul_right (Nat.pos_pow_of_pos b.shift (by norm_num)) heq
      have : 2 ^ 53 ≤ a.mant * 2 ^ (a.shift - b.shift) := by
        calc 2 ^ 53 = 2 ^ 52 * 2 ^ 1 := by norm_num
          _ ≤ a.mant * 2 ^ (a.shift - b.shift) :=
            Nat.mul_le_mul hma2 (Nat.pow_le_pow_right (by norm_num) (by omega))
      omega

/-- A signed integer of the form `± A` (`A : ℕ`) is zero exactly when
`A` is. -/
theorem signed_cast_zero (sa sb : Bool) (B : Nat)
    (h : (if sa then -1 else 1) * ((0 : ℕ) : ℤ) = (if sb then -1 else 1) * (B : ℤ)) :
    B = 0 := by
  cases sa <;> cases sb <;> norm_num at h <;> omega

/-- Two signed decompositions `± A = ± B` with `A, B` positive naturals
agree in both magnitude and sign. -/
theorem signed_cast_eq (sa sb : Bool) (A B : Nat) (hA : 0 < A) (hB : 0 < B)
    (h : (if sa then -1 else 1) * (A : ℤ) = (if sb then -1 else 1) * (B : ℤ)) :
    A = B ∧ sa = sb := by
  cases sa <;> cases sb <;> norm_num at h
  · exact ⟨by exact_mod_cast h, rfl⟩
  · exfalso; omega
  · exfalso; omega
  · exact ⟨by exact_mod_cast h, rfl⟩

/-- Floats that compare equal under Python `==` hash identically. -/
theorem pyHash_congr (a b : F64) (h : pyEq a b = true) : pyHash a = pyHash b := by
  unfold pyEq at h
  by_cases hn : (a.isNaN || b.isNaN) = true
  · rw [if_pos hn] at h
    exact absurd h (by simp)
  rw [if_neg hn] at h
  simp only [Bool.or_eq_true, not_or, Bool.not_eq_true] at hn
  obtain ⟨hna, hnb⟩ := hn
  by_cases hf : (a.isFinite && b.isFinite) = true
  · rw [if_pos hf] at h
    obtain ⟨hfa, hfb⟩ := Bool.and_eq_true_iff.mp hf
    have hsv : a.sval = b.sval := by simpa using h
    have hia : a.isInf = false := by
      unfold isInf
      unfold isFinite at hfa
      simp at hfa ⊢
      omega
    have hib : b.isInf = false := by
      unfold isInf
      unfold isFinite at hfb
      simp at hfb ⊢
      omega
    have hsv' := hsv
    unfold sval at hsv'
    by_cases hma : a.mant = 0
    · -- both values are a zero: hash is 0 on each side
      have hA0 : a.mant * 2 ^ a.shift = 0 := by rw [hma]; ring
      rw [hA0] at hsv'
      have hB0 := signed_cast_zero a.sign b.sign _ hsv'
      have hmb : b.mant = 0 := by
        rcases Nat.mul_eq_zero.mp hB0 with hz | hz
        · exact hz
        · exact absurd hz (Nat.pos_iff_ne_zero.mp (Nat.pos_pow_of_pos _ (by norm_num)))
      unfold pyHash
      rw [hna, hnb, hia, hib, hma, hmb]
      norm_num
    · -- nonzero value: sign, significand and exponent all coincide
      have hA : 0 < a.mant * 2 ^ a.shift :=
        Nat.mul_pos (Nat.pos_of_ne_zero hma) (Nat.pos_pow_of_pos _ (by norm_num))
      have hmb : b.mant ≠ 0 := by
        intro hmb
        have hB0 : b.mant * 2 ^ b.shift = 0 := by rw [hmb]; ring
        rw [hB0] at hsv'
        have hz := signed_cast_zero b.sign a.sign _ hsv'.symm
        rw [hz] at hA
        exact Nat.lt_irrefl 0 hA
      have hB : 0 < b.mant * 2 ^ b.shift :=
        Nat.mul_pos (Nat.pos_of_ne_zero hmb) (Nat.pos_pow_of_pos _ (by norm_num))
      obtain ⟨hAB, hsign⟩ := signed_cast_eq a.sign b.sign _ _ hA hB hsv'
      obtain ⟨hmant, hshift⟩ := mant_shift_unique a b hAB
      unfold pyHash
      rw [hna, hnb, hia, hib, hmant, hshift, hsign]
  · -- both operands non-finite and non-NaN: two infinities of one sign
    rw [if_neg hf] at h
    by_cases hi : (a.isInf && b.isInf) = true
    · rw [if_pos hi] at h
      obtain ⟨hia, hib⟩ := Bool.and_eq_true_iff.mp hi
      have hsign : a.sign = b.sign := by simpa using h
      unfold pyHash
      rw [hna, hnb, hia, hib, hsign]
      norm_num
    · rw [if_neg hi] at h
      exact absurd h (by simp)

/-- `pyEq` is reflexive away from NaN (`x == x` for any non-NaN float). -/
theorem pyEq_refl (a : F64) (h : a.isNaN = false) : pyEq a a = true := by
  unfold pyEq
  simp only [h, Bool.or_self, Bool.false_eq_true, if_false]
  by_cases hf : a.expF = 2047
  · have hm : a.mantF = 0 := by unfold isNaN at h; simpa [hf] using h
    simp [isFinite, isInf, hf, hm]
  · simp [isFinite, isInf, hf]

end F64

namespace Vector2d

theorem frombytes_pyBytes (v : Vector2d) : frombytes (pyBytes v) = some v := by
  have hlen : (pyBytes v).length = 16 := rfl
  have htake : (pyBytes v).take 8 = v.x.toBytes := rfl
  have hdrop : (pyBytes v).drop 8 = v.y.toBytes := rfl
  rw [frombytes, if_pos hlen, htake, hdrop,
    F64.ofBits_bytesToNat_toBytes, F64.ofBits_bytesToNat_toBytes]


theorem dropPre_append (p s : List Char) : dropPre p (p ++ s) = some s := by
  induction p with
  | nil => rfl
  | cons c cs ih => simpa [dropPre] using ih

theorem dropParen_append (s : List Char) : dropParen (s ++ [')']) = some s := by
  unfold dropParen
  rw [List.getLast?_concat, if_pos rfl, List.dropLast_concat]

theorem splitComma_append (a b : List Char) (ha : ',' ∉ a) :
    splitComma (a ++ ',' :: ' ' :: b) = some (a, b) := by
  induction a with
  | nil => rfl
  | cons c cs ih =>
    have hc : ¬c = ',' := fun h => ha (by simp [h])
    have hcs : ',' ∉ cs := fun h => ha (List.mem_cons_of_mem _ h)
    simp only [List.cons_append, splitComma, if_neg hc, List.append_eq, ih hcs]

/-- The re-parse of the canonical representation succeeds and rebuilds
the instance field for field, as long as the float renderer emits
comma-free tokens the float parser inverts. -/
theorem evalRepr_pyRepr (fr : F64 → String) (pf : String → Option F64)
    (v : Vector2d) (hx : pf (fr v.x) = some v.x) (hy : pf (fr v.y) = some v.y)
    (hcx : ',' ∉ (fr v.x).data) :
    evalRepr pf (pyRepr fr v) = some v := by
  have hform : (pyRepr fr v).data
      = "Vector2d(".data ++ (((fr v.x).data ++ ',' :: ' ' :: (fr v.y).data) ++ [')']) := by
    unfold pyRepr
    simp [String.data_append]
  have hx' : pf (String.mk (fr v.x).data) = some v.x := hx
  have hy' : pf (String.mk (fr v.y).data) = some v.y := hy
  unfold evalRepr
  rw [hform]
  simp only [dropPre_append, dropParen_append, splitComma_append _ _ hcx, hx', hy']

theorem abs2_nonneg (v : Vector2d) : 0 ≤ v.abs2 := by
  unfold abs2
  positivity

/-- `bool(v)` is false exactly when the exact squared norm vanishes. -/
theorem pyBool_false_iff (v : Vector2d) : pyBool v = false ↔ v.abs2 = 0 := by
  unfold pyBool abs2 F64.valQ
  constructor
  · intro h
    have hsum : v.x.sval * v.x.sval + v.y.sval * v.y.sval = 0 := by simpa using h
    have h1 : 0 ≤ v.x.sval * v.x.sval := mul_self_nonneg _
    have h2 : 0 ≤ v.y.sval * v.y.sval := mul_self_nonneg _
    have hx : v.x.sval = 0 := by
      have : v.x.sval * v.x.sval = 0 := by omega
      exact mul_self_eq_zero.mp this
    have hy : v.y.sval = 0 := by
      have : v.y.sval * v.y.sval = 0 := by omega
      exact mul_self_eq_zero.mp this
    rw [hx, hy]
    norm_num
  · intro h
    have hx : ((v.x.sval : ℚ) / 2 ^ 1074) ^ 2 = 0 ∧ ((v.y.sval : ℚ) / 2 ^ 1074) ^ 2 = 0 := by
      constructor <;>
        nlinarith [sq_nonneg ((v.x.sval : ℚ) / 2 ^ 1074), sq_nonneg ((v.y.sval : ℚ) / 2 ^ 1074)]
    have hx0 : (v.x.sval : ℚ) = 0 := by
      have := pow_eq_zero_iff (n := 2) (by norm_num) |>.mp hx.1
      rcases div_eq_zero_iff.mp this with h0 | h0
      · exact h0
      · exact absurd h0 (by positivity)
    have hy0 : (v.y.sval : ℚ) = 0 := by
      have := pow_eq_zero_iff (n := 2) (by norm_num) |>.mp hx.2
      rcases div_eq_zero_iff.mp this with h0 | h0
      · exact h0
      · exact absurd h0 (by positivity)
    have hx1 : v.x.sval = 0 := by exact_mod_cast hx0
    have hy1 : v.y.sval = 0 := by exact_mod_cast hy0
    simp [hx1, hy1]

/-- The modelled `hypot` result is zero exactly when the exact squared
norm vanishes. -/
theorem magnitude_zero_iff (v : Vector2d) : magnitude v = 0 ↔ v.abs2 = 0 := by
  unfold magnitude
  constructor
  · intro h
    have hle : ((v.abs2 : ℚ) : ℝ) ≤ 0 := Real.sqrt_eq_zero'.mp h
    have hge : (0 : ℝ) ≤ ((v.abs2 : ℚ) : ℝ) := by
      exact_mod_cast abs2_nonneg v
    have : ((v.abs2 : ℚ) : ℝ) = 0 := le_antisymm hle hge
    exact_mod_cast this
  · intro h
    rw [h]
    norm_num

end Vector2d

theorem valQ_f1 : f1.valQ = 1 := by
  unfold f1 F64.valQ F64.sval F64.mant F64.shift
  norm_num

theorem valQ_f3 : f3.valQ = 3 := by
  unfold f3 F64.valQ F64.sval F64.mant F64.shift
  norm_num

theorem valQ_f4 : f4.valQ = 4 := by
  unfold f4 F64.valQ F64.sval F64.mant F64.shift
  norm_num

theorem v34_eq : v34 = ⟨f3, f4⟩ := by decide

theorem v11_eq : v11 = ⟨f1, f1⟩ := by decide

theorem abs2_v34 : v34.abs2 = 25 := by
  rw [v34_eq]
  unfold Vector2d.abs2
  rw [show (Vector2d.mk f3 f4).x = f3 from rfl, show (Vector2d.mk f3 f4).y = f4 from rfl,
    valQ_f3, valQ_f4]
  norm_num

theorem abs2_v11 : v11.abs2 = 2 := by
  rw [v11_eq]
  unfold Vector2d.abs2
  rw [show (Vector2d.mk f1 f1).x = f1 from rfl, show (Vector2d.mk f1 f1).y = f1 from rfl,
    valQ_f1]
  norm_num

theorem magnitude_v34 : v34.magnitude = 5 := by
  unfold Vector2d.magnitude
  rw [abs2_v34]
  rw [show (((25 : ℚ) : ℝ)) = 5 ^ 2 by norm_num]
  exact Real.sqrt_sq (by norm_num)

theorem magnitude_v11 : v11.magnitude = Real.sqrt 2 := by
  unfold Vector2d.magnitude
  rw [abs2_v11]
  norm_num

theorem angle_v11 : v11.angle = Real.pi / 4 := by
  rw [v11_eq]
  unfold Vector2d.angle Vector2d.atan2
  rw [show (Vector2d.mk f1 f1).x = f1 from rfl, show (Vector2d.mk f1 f1).y = f1 from rfl,
    valQ_f1]
  norm_num

theorem lookup_head (k : String) (v : α) (rest : List (String × α)) :
    Schedule.lookup k ((k, v) :: rest) = some v := by
  unfold Schedule.lookup
  rw [if_pos rfl]

/-! ## The claims -/

/-- C1: for every composite key present in the dataset, `fetch` returns
a record, and a repeated call returns the identical cached record with
the state unchanged — at most one record is ever constructed per key. -/
theorem claim_C1_fetch_memoized (st : Schedule.FetchState) (key : String)
    (flds : Schedule.Fields)
    (hkey : Schedule.lookup key st.dataset = some flds) :
    ∃ r st2, Schedule.fetch st key = (.ok r, st2) ∧
      Schedule.fetch st2 key = (.ok r, st2) := by
  cases hc : Schedule.lookup key st.cache with
  | some r =>
    exact ⟨r, st, by unfold Schedule.fetch; rw [hc], by unfold Schedule.fetch; rw [hc]⟩
  | none =>
    refine ⟨Schedule.mkRec key flds,
      ⟨st.dataset, (key, Schedule.mkRec key flds) :: st.cache⟩, ?_, ?_⟩
    · unfold Schedule.fetch
      rw [hc, hkey]
    · simp only [Schedule.fetch, lookup_head]

/-- C1 witness: fetching `venue.1469` twice from the sample dataset
yields the same record and leaves the state unchanged the second
time. -/
theorem claim_C1_witness :
    Schedule.lookup "venue.1469" demoState.dataset
        = some [("serial", .int 1469), ("name", .str "Exhibit Hall C")] ∧
    ∃ r st2, Schedule.fetch demoState "venue.1469" = (.ok r, st2) ∧
      Schedule.fetch st2 "venue.1469" = (.ok r, st2) :=
  ⟨by decide, claim_C1_fetch_memoized demoState "venue.1469"
    [("serial", .int 1469), ("name", .str "Exhibit Hall C")] (by decide)⟩

/-- C2: serialising a vector with non-NaN components gives exactly the
8 bytes of `x` followed by the 8 bytes of `y` (16 bytes, no header or
length prefix), and deserialising those bytes reconstructs an equal
vector. -/
theorem claim_C2_bytes_roundtrip (v : Vector2d)
    (hx : v.x.isNaN = false) (hy : v.y.isNaN = false) :
    Vector2d.pyBytes v = v.x.toBytes ++ v.y.toBytes ∧
    (Vector2d.pyBytes v).length = 16 ∧
    ∃ w, Vector2d.frombytes (Vector2d.pyBytes v) = some w ∧
      Vector2d.vecEq w v = true := by
  refine ⟨rfl, rfl, v, Vector2d.frombytes_pyBytes v, ?_⟩
  show (F64.pyEq v.x v.x && (F64.pyEq v.y v.y && true)) = true
  rw [F64.pyEq_refl v.x hx, F64.pyEq_refl v.y hy]
  rfl

/-- C2 witness: the round trip at `Vector2d(3, 4)`. -/
theorem claim_C2_witness :
    (v34.x.isNaN = false ∧ v34.y.isNaN = false) ∧
    ∃ w, Vector2d.frombytes (Vector2d.pyBytes v34) = some w ∧
      Vector2d.vecEq w v34 = true :=
  ⟨⟨by decide, by decide⟩, (claim_C2_bytes_roundtrip v34 (by decide) (by decide)).2.2⟩

/-- C3: the vector hash is the bitwise XOR of the two component hashes,
and vectors that compare equal hash equally. -/
theorem claim_C3_hash_consistent (v w : Vector2d)
    (h : Vector2d.vecEq v w = true) :
    Vector2d.vecHash v = Int.xor (F64.pyHash v.x) (F64.pyHash v.y) ∧
    Vector2d.vecHash v = Vector2d.vecHash w := by
  refine ⟨rfl, ?_⟩
  have h' : (F64.pyEq v.x w.x && (F64.pyEq v.y w.y && true)) = true := h
  simp only [Bool.and_eq_true, and_true] at h'
  unfold Vector2d.vecHash
  rw [F64.pyHash_congr v.x w.x h'.1, F64.pyHash_congr v.y w.y h'.2]

/-- C3 witness: `Vector2d(0, 0)` and the vector `(0.0, -0.0)` compare
equal across distinct bit patterns and hash equally. -/
theorem claim_C3_witness :
    Vector2d.vecEq v00 vNegZero = true ∧
    Vector2d.vecHash v00 = Vector2d.vecHash vNegZero :=
  ⟨by decide, (claim_C3_hash_consistent v00 vNegZero (by decide)).2⟩

/-- C4: construction coerces both numeric arguments with `float(…)`,
and any later assignment to the `x` or `y` property fails with
`AttributeError: can't set attribute` (the properties have no setter),
producing no updated instance. -/
theorem claim_C4_components_readonly (a b : PyNum) (c : Vector2d.Comp) (nv : F64) :
    (Vector2d.init a b).toList = [pyFloat a, pyFloat b] ∧
    Vector2d.setAttr (Vector2d.init a b) c nv =
      .error "AttributeError: can't set attribute" := by
  refine ⟨rfl, ?_⟩
  cases c <;> rfl

/-- C5: a vector is falsy exactly when its magnitude is zero;
`Vector2d(3, 4)` has magnitude `5.0` and is truthy, `Vector2d(0, 0)` is
falsy. -/
theorem claim_C5_truthiness :
    (∀ v : Vector2d, Vector2d.pyBool v = false ↔ Vector2d.magnitude v = 0) ∧
    Vector2d.magnitude v34 = 5 ∧
    Vector2d.pyBool v34 = true ∧ Vector2d.pyBool v00 = false := by
  refine ⟨fun v => ?_, magnitude_v34, by decide, by decide⟩
  rw [Vector2d.pyBool_false_iff, Vector2d.magnitude_zero_iff]

/-- C6: a format spec ending in the polar suffix `'p'` renders
`<magnitude, angle>` with the remaining spec applied per component, any
other spec renders the Cartesian pair `(x, y)`; for `Vector2d(1, 1)`
the polar components are `√2` and `π/4` exactly (the model computes the
exact real values, so they hold within any floating tolerance). -/
theorem claim_C6_polar_format (fmtc : String → ℝ → String) (v : Vector2d)
    (spec : String) :
    (Vector2d.endsWithP spec = true →
      Vector2d.pyFormat fmtc v spec =
        "<" ++ fmtc (Vector2d.dropLastStr spec) (Vector2d.magnitude v) ++ ", " ++
          fmtc (Vector2d.dropLastStr spec) (Vector2d.angle v) ++ ">") ∧
    (Vector2d.endsWithP spec = false →
      Vector2d.pyFormat fmtc v spec =
        "(" ++ fmtc spec (v.x.valQ : ℝ) ++ ", " ++ fmtc spec (v.y.valQ : ℝ) ++ ")") ∧
    Vector2d.magnitude v11 = Real.sqrt 2 ∧ Vector2d.angle v11 = Real.pi / 4 := by
  refine ⟨fun hp => ?_, fun hp => ?_, magnitude_v11, angle_v11⟩
  · unfold Vector2d.pyFormat
    rw [if_pos hp]
  · unfold Vector2d.pyFormat
    rw [if_neg (by simp [hp])]

/-- C6 witness: the two branches at `Vector2d(1, 1)` with a constant
component formatter, at the specs `"p"` and `".2f"`. -/
theorem claim_C6_witness :
    (Vector2d.endsWithP "p" = true ∧
      Vector2d.pyFormat (fun _ _ => "c") v11 "p" = "<c, c>") ∧
    (Vector2d.endsWithP ".2f" = false ∧
      Vector2d.pyFormat (fun _ _ => "c") v11 ".2f" = "(c, c)") :=
  ⟨⟨by decide, by rw [(claim_C6_polar_format (fun _ _ => "c") v11 "p").1 (by decide)]; decide⟩,
   ⟨by decide, by
      rw [(claim_C6_polar_format (fun _ _ => "c") v11 ".2f").2.1 (by decide)]; decide⟩⟩

/-- C7 counterexample: the claim fails as stated at a vector with a NaN
component — even when evaluating the representation reconstructs the
instance bit for bit (here with a float renderer/parser pair that
round-trips the NaN), the result does not compare equal, because a NaN
is not `==`-equal to itself. -/
theorem claim_C7_counterexample :
    Vector2d.evalRepr
        (fun s => if s = "nan" then some fNaN else if s = "0.0" then some F64.zero else none)
        (Vector2d.pyRepr (fun f => if f = fNaN then "nan" else "0.0") vNaN) = some vNaN ∧
    Vector2d.vecEq vNaN vNaN = false := by
  constructor
  · decide
  · decide

/-- C7 (amended to vectors with non-NaN components): the canonical
representation is the constructor expression `Vector2d(x, y)` built
from the float representations of the components, and re-parsing it —
with any float renderer/parser pair that round-trips the two components
and renders comma-free tokens, as the builtin float `repr`/literal
syntax does — reconstructs an instance that compares equal. -/
theorem claim_C7_repr_roundtrip (fr : F64 → String) (pf : String → Option F64)
    (v : Vector2d)
    (hx : pf (fr v.x) = some v.x) (hy : pf (fr v.y) = some v.y)
    (hcx : ',' ∉ (fr v.x).data)
    (hnx : v.x.isNaN = false) (hny : v.y.isNaN = false) :
    Vector2d.pyRepr fr v = "Vector2d(" ++ fr v.x ++ ", " ++ fr v.y ++ ")" ∧
    ∃ w, Vector2d.evalRepr pf (Vector2d.pyRepr fr v) = some w ∧
      Vector2d.vecEq w v = true := by
  refine ⟨rfl, v, Vector2d.evalRepr_pyRepr fr pf v hx hy hcx, ?_⟩
  show (F64.pyEq v.x v.x && (F64.pyEq v.y v.y && true)) = true
  rw [F64.pyEq_refl v.x hnx, F64.pyEq_refl v.y hny]
  rfl

/-- C7 witness: the round trip at `Vector2d(3, 4)` with a two-token
renderer/parser pair. -/
theorem claim_C7_witness :
    ∃ w, Vector2d.evalRepr (fun s => if s = "3.0" then some f3 else if s = "4.0" then some f4 else none)
        (Vector2d.pyRepr (fun f => if f = f3 then "3.0" else "4.0") v34) = some w ∧
      Vector2d.vecEq w v34 = true :=
  (claim_C7_repr_roundtrip (fun f => if f = f3 then "3.0" else "4.0")
    (fun s => if s = "3.0" then some f3 else if s = "4.0" then some f4 else none)
    v34 (by decide) (by decide) (by decide) (by decide) (by decide)).2

/-- C8: fetching a key absent from the dataset (with a cache whose
entries all come from the dataset, as the loader maintains) surfaces a
`KeyError` and returns the state — in particular the cache — entirely
unchanged. -/
theorem claim_C8_missing_key (st : Schedule.FetchState) (key : String)
    (hds : Schedule.lookup key st.dataset = none)
    (hwf : ∀ k r, Schedule.lookup k st.cache = some r →
      (Schedule.lookup k st.dataset).isSome = true) :
    Schedule.fetch st key = (.error ("KeyError: " ++ key), st) := by
  have hc : Schedule.lookup key st.cache = none := by
    cases hcc : Schedule.lookup key st.cache with
    | none => rfl
    | some r =>
      have hsome := hwf key r hcc
      rw [hds] at hsome
      simp at hsome
  unfold Schedule.fetch
  rw [hc, hds]

/-- C8 witness: a missing speaker key against the sample dataset. -/
theorem claim_C8_witness :
    Schedule.lookup "speaker.9999" demoState.dataset = none ∧
    Schedule.fetch demoState "speaker.9999" =
      (.error ("KeyError: " ++ "speaker.9999"), demoState) :=
  ⟨by decide, claim_C8_missing_key demoState "speaker.9999" (by decide)
    (by intro k r h; simp [demoState, Schedule.lookup] at h)⟩

/-- C9: the display form is kind-dependent — an event record with a
title field embeds the title, an event record without one falls back to
a form embedding its serial number, and generic records show the
default representation. -/
theorem claim_C9_kind_dependent_repr :
    (∀ (flds : Schedule.Fields) (t : String),
        Schedule.lookup "title" flds = some (.str t) →
        Schedule.recRepr ⟨.event, flds⟩ = "<Event '" ++ t ++ "'>") ∧
    (∀ (flds : Schedule.Fields) (n : ℤ),
        Schedule.lookup "title" flds = none →
        Schedule.lookup "serial" flds = some (.int n) →
        Schedule.recRepr ⟨.event, flds⟩ = "<Event serial=" ++ toString n ++ ">") ∧
    (∀ flds : Schedule.Fields,
        Schedule.recRepr ⟨.generic, flds⟩ = Schedule.defaultRepr) := by
  refine ⟨fun flds t ht => ?_, fun flds n ht hs => ?_, fun flds => rfl⟩
  · simp only [Schedule.recRepr, ht]
  · simp only [Schedule.recRepr, ht, hs]

/-- C9 witness: the two event display forms pinned by the test file. -/
theorem claim_C9_witness :
    Schedule.recRepr ⟨.event, [("serial", .int 33950), ("title", .str "There *Will* Be Bugs")]⟩
        = "<Event 'There *Will* Be Bugs'>" ∧
    Schedule.recRepr ⟨.event, [("serial", .int 77), ("kind", .str "show")]⟩
        = "<Event serial=77>" := by
  constructor
  · exact claim_C9_kind_dependent_repr.1 _ "There *Will* Be Bugs" (by decide)
  · rw [claim_C9_kind_dependent_repr.2.1 [("serial", .int 77), ("kind", .str "show")] 77
      (by decide) (by decide)]
    decide

/-- C10: because `__eq__` converts both operands to component tuples, a
vector compares equal to any two-element float sequence with equal
components; in particular `Vector2d(3, 4) == (3.0, 4.0)`. -/
theorem claim_C10_eq_any_iterable (v : Vector2d) (a b : F64)
    (ha : F64.pyEq v.x a = true) (hb : F64.pyEq v.y b = true) :
    Vector2d.vecEqList v [a, b] = true := by
  show (F64.pyEq v.x a && (F64.pyEq v.y b && true)) = true
  rw [ha, hb]
  rfl

/-- C10 witness: `Vector2d(3, 4) == (3.0, 4.0)`. -/
theorem claim_C10_witness :
    F64.pyEq v34.x f3 = true ∧ F64.pyEq v34.y f4 = true ∧
    Vector2d.vecEqList v34 [f3, f4] = true :=
  ⟨by decide, by decide, claim_C10_eq_any_iterable v34 f3 f4 (by decide) (by decide)⟩

end JcchSpec
